import Mathlib

/-!
Verification of scrapy-playwright's download handler against its specification.

Python values are shallowly embedded: `str` as `String`, `bytes` as `List Nat`,
`Optional[T]` as `Option T`, raised exceptions as `Except`.  Concrete codecs
(`str.encode`/`bytes.decode`, w3lib charset detection) are external libraries and
enter as function parameters; `tryEncode enc text = some bytes` models a
successful `text.encode(enc)` and `none` models `UnicodeEncodeError`.
-/

namespace ScrapyPlaywright

/-- Python's `in` operator on strings (substring containment). -/
def strContains (sub s : String) : Bool :=
  decide (sub.toList <:+: s.toList)

/-- The constant `_NAVIGATION_ERROR_MSG` from `_utils.py`. -/
def NAVIGATION_ERROR_MSG : String :=
  "Unable to retrieve content because the page is navigating and changing the content."

/-- Errors raised by the browser engine (`playwright.async_api.Error`). -/
structure PlaywrightError where
  message : String
deriving DecidableEq, Repr

/-- From `_utils._possible_encodings`: yield the charset parsed out of the
Content-Type header (only when that header is present and truthy), then the
charset declared inside the HTML body.  Either element may be `none`. -/
def possible_encodings (httpContentTypeEncoding : String → Option String)
    (htmlBodyDeclaredEncoding : String → Option String)
    (contentType : Option String) (text : String) : List (Option String) :=
  (match contentType with
    | some ct => if ct ≠ "" then [httpContentTypeEncoding ct] else []
    | none => []) ++ [htmlBodyDeclaredEncoding text]

/-- The `for` loop of `_utils._encode_body`: the first candidate charset under
which the text encodes wins; an encode failure skips to the next candidate;
when no candidate works the body is encoded as UTF-8. -/
def encode_body_loop (tryEncode : String → String → Option (List Nat))
    (utf8Encode : String → List Nat) (text : String) :
    List String → List Nat × String
  | [] => (utf8Encode text, "utf-8")
  | enc :: rest =>
    match tryEncode enc text with
    | some body => (body, enc)
    | none => encode_body_loop tryEncode utf8Encode text rest

/-- From `_utils._encode_body`: run the loop over the non-`None` candidate
charsets produced by `_possible_encodings`. -/
def encode_body (tryEncode : String → String → Option (List Nat))
    (utf8Encode : String → List Nat)
    (httpContentTypeEncoding htmlBodyDeclaredEncoding : String → Option String)
    (contentType : Option String) (text : String) : List Nat × String :=
  encode_body_loop tryEncode utf8Encode text
    ((possible_encodings httpContentTypeEncoding htmlBodyDeclaredEncoding
        contentType text).filterMap id)

/-- From `_utils._get_page_content`: the two `await page.content()` calls are
modelled by their outcomes.  A first failure whose message contains the
navigation error message triggers exactly one retry whose result (value or
error) is returned as is; any other first failure propagates. -/
def get_page_content (attempt retryAttempt : Except PlaywrightError String) :
    Except PlaywrightError String :=
  match attempt with
  | .ok content => .ok content
  | .error err =>
    if strContains NAVIGATION_ERROR_MSG err.message then retryAttempt
    else .error err

/-- One hop of a response's `redirected_from` chain (`handler._set_redirect_meta`):
the hop's request URL and the status of the hop's intermediate response
(`none` when `await redirected.response()` returned `None`). -/
structure RedirectHop where
  url : String
  status : Option Nat
deriving DecidableEq, Repr

/-- Request metadata keys set by `_set_redirect_meta`; `none` means the key is
absent from `request.meta`. -/
structure RedirectMeta where
  redirect_times : Option Nat := none
  redirect_urls : Option (List String) := none
  redirect_reasons : Option (List (Option Nat)) := none
deriving DecidableEq, Repr

/-- The `while redirected is not None` loop of `_set_redirect_meta`: the chain is
given nearest-hop first, and the loop accumulates hop count, URLs and intermediate
statuses in walk order. -/
def collect_redirects : List RedirectHop → Nat × List String × List (Option Nat)
  | [] => (0, [], [])
  | hop :: rest =>
    let acc := collect_redirects rest
    (acc.1 + 1, hop.url :: acc.2.1, hop.status :: acc.2.2)

/-- From `handler._set_redirect_meta`: walk the chain, then reverse the collected
lists into caller-chronological order; set the meta keys only when at least one
redirect happened. -/
def set_redirect_meta (chain : List RedirectHop) (meta : RedirectMeta) : RedirectMeta :=
  let acc := collect_redirects chain
  if acc.1 ≠ 0 then
    { meta with
      redirect_times := some acc.1
      redirect_urls := some acc.2.1.reverse
      redirect_reasons := some acc.2.2.reverse }
  else meta

/-- The `Download` dataclass from `handler.py`.  The deferred exception is kept
as its message. -/
structure Download where
  body : List Nat := []
  url : String := ""
  suggested_filename : String := ""
  exception : Option String := none
  response_status : Nat := 200
  headers : List (String × String) := []
deriving DecidableEq, Repr

/-- `Download.__bool__`: `bool(self.body) or bool(self.exception)`. -/
def Download.toBool (d : Download) : Bool :=
  !d.body.isEmpty || d.exception.isSome

/-- The `download if download else None` result of `_get_response_and_download`,
and the truthiness of an `Optional[Download]` as used by `if download:`. -/
def downloadOrNone (d : Download) : Option Download :=
  if d.toBool then some d else none

/-- Truthiness of a Python `Optional[Download]`: `None` is falsy, a `Download`
falls back to `Download.__bool__`. -/
def optDownloadTruthy : Option Download → Bool
  | none => false
  | some d => d.toBool

/-- A browser navigation response; only the status matters here. -/
structure PWResponse where
  status : Nat
deriving DecidableEq, Repr

/-- Outcome of `await page.goto(...)`: a (possibly `None`) response, or a raised
`PlaywrightError`. -/
inductive GotoOutcome
  | ok (response : Option PWResponse)
  | err (e : PlaywrightError)
deriving DecidableEq, Repr

/-- The error filter of `_get_response_and_download`: the engine-specific error
meaning "this navigation turned into a file download", which depends on the
configured browser type. -/
def isDownloadStartError (browser_type_name : String) (e : PlaywrightError) : Bool :=
  ((browser_type_name == "firefox" || browser_type_name == "webkit") &&
      strContains "Download is starting" e.message) ||
    (browser_type_name == "chromium" && strContains "net::ERR_ABORTED" e.message)

/-- From `handler._get_response_and_download`.  `downloadAtStarted` is the state
of the in-place-updated `Download` record when the `download_started` event
fires (its `response_status` was set by `_handle_response` from the intermediate
response); `downloadFinal` is the record state once `download_ready` fires
(body fully read or a deferred exception captured), and also the record state at
a normal return. -/
def get_response_and_download (browser_type_name : String) (goto : GotoOutcome)
    (downloadAtStarted downloadFinal : Download) :
    Except PlaywrightError (Option PWResponse × Option Download) :=
  match goto with
  | .ok response => .ok (response, downloadOrNone downloadFinal)
  | .err e =>
    if isDownloadStartError browser_type_name e then
      if downloadAtStarted.response_status = 204 then .error e
      else .ok (none, downloadOrNone downloadFinal)
    else .error e

/-- Marks whether a finalized response body came from the download record or from
the page content (`_download_request_with_page`, final `return` statements). -/
inductive ResponseBody
  | fromDownload (body : List Nat)
  | fromPage (body : List Nat) (encoding : String)
deriving DecidableEq, Repr

/-- The finalized Scrapy response (the fields the claims are about). -/
structure FinalResponse where
  url : String
  status : Nat
  body : ResponseBody
deriving DecidableEq, Repr

/-- The tail of `handler._download_request_with_page` (from the
`if download and download.exception` check on): raise a deferred download
exception, otherwise build the response from the download record when it is
truthy and from the page content otherwise.  `encodedPage` is the
`_encode_body` result for the page content, `navStatus` the status of the
navigation response (`none` when `goto` returned no response). -/
def download_request_with_page (download : Option Download)
    (encodedPage : List Nat × String) (pageUrl : String) (navStatus : Option Nat) :
    Except String FinalResponse :=
  let dlException := download.bind Download.exception
  if optDownloadTruthy download && dlException.isSome then
    .error (dlException.getD "")
  else if optDownloadTruthy download then
    let d := download.getD {}
    .ok { url := d.url, status := d.response_status, body := .fromDownload d.body }
  else
    .ok { url := pageUrl, status := navStatus.getD 200,
          body := .fromPage encodedPage.1 encodedPage.2 }

/-- Result of one `_download_request_with_retry` attempt as observed by the
`while True` loop of `_download_request`: a response, a raised
`TargetClosedError`, or any other exception. -/
inductive AttemptResult
  | success (response : FinalResponse)
  | targetClosed (e : PlaywrightError)
  | otherFailure (e : PlaywrightError)
deriving DecidableEq, Repr

/-- The `while True` loop of `handler._download_request`:
`remaining = target_closed_max_retries - (attempts already failed)`; a
`TargetClosedError` with no retries remaining is re-raised, any other
exception propagates immediately. -/
def download_request_go (attempts : Nat → AttemptResult) :
    Nat → Nat → Except PlaywrightError FinalResponse
  | i, 0 =>
    match attempts i with
    | .success r => .ok r
    | .otherFailure e => .error e
    | .targetClosed e => .error e
  | i, rem + 1 =>
    match attempts i with
    | .success r => .ok r
    | .otherFailure e => .error e
    | .targetClosed _ => download_request_go attempts (i + 1) rem

/-- From `handler._download_request`: attempt 0 runs with the full retry budget
(`counter` starts at 0 and the loop re-raises once `counter > max_retries`). -/
def download_request (attempts : Nat → AttemptResult)
    (target_closed_max_retries : Nat) : Except PlaywrightError FinalResponse :=
  download_request_go attempts 0 target_closed_max_retries

/-- The retry-relevant part of the `Config` dataclass (`handler.py`), with its
declared default. -/
structure Config where
  target_closed_max_retries : Nat := 3
deriving DecidableEq, Repr

/-- A network request intercepted by the routing handler
(`playwright.async_api.Request`): its URL, HTTP method, and whether it is a
navigation request. -/
structure PlaywrightRequest where
  url : String
  method : String
  is_navigation_request : Bool
deriving DecidableEq, Repr

/-- Python's `url.rstrip("/")`: strip every trailing slash. -/
def rstripSlash (s : String) : String :=
  String.mk ((s.toList.reverse.dropWhile (· == '/')).reverse)

/-- Python's `str.upper()` (the HTTP method strings it is applied to are
ASCII). -/
def pyUpper (s : String) : String :=
  String.mk (s.toList.map Char.toUpper)

/-- The keyword arguments accumulated for `route.continue_` in
`handler._request_handler` (headers are reconciled separately and are not part
of the claims about method/body overrides). -/
structure Overrides where
  method : Option String := none
  post_data : Option String := none
deriving DecidableEq, Repr

/-- The primary-match condition of `_request_handler`, minus the one-shot flag:
the intercepted URL equals the Scrapy URL up to trailing slashes and the
intercepted request is a navigation request. -/
def matchesScrapyRequest (url : String) (pr : PlaywrightRequest) : Bool :=
  (rstripSlash pr.url == rstripSlash url) && pr.is_navigation_request

/-- The method/body override block of `handler._request_handler` for a single
intercepted request: given the caller's method, URL, optional body and declared
encoding, and the current state of the `initial_request_done` flag, decide
whether this intercepted request is the primary match and which overrides it
receives.  `decode b enc` models `b.decode(enc)`.  Returns (matched, overrides);
the flag after the call is `initial_request_done || matched`. -/
def request_handler_match (method url : String) (body : Option (List Nat))
    (decode : List Nat → String → String) (encoding : String)
    (initial_request_done : Bool) (pr : PlaywrightRequest) : Bool × Overrides :=
  if matchesScrapyRequest url pr && !initial_request_done then
    let withMethod : Overrides :=
      if pyUpper method ≠ pyUpper pr.method then { method := some method } else {}
    let withBody : Overrides :=
      match body with
      | some b => if b ≠ [] then { withMethod with post_data := some (decode b encoding) }
                  else withMethod
      | none => withMethod
    (true, withBody)
  else (false, {})

/-- The sequence of intercepted requests of one page load, processed in order
with the shared one-shot `initial_request_done` flag threaded through. -/
def process_requests (method url : String) (body : Option (List Nat))
    (decode : List Nat → String → String) (encoding : String) :
    Bool → List PlaywrightRequest → List (Bool × Overrides)
  | _, [] => []
  | flag, pr :: rest =>
    let step := request_handler_match method url body decode encoding flag pr
    step :: process_requests method url body decode encoding (flag || step.1) rest

/-- The overrides the primary match receives, per the source: the method when it
differs case-insensitively, the decoded body when the caller supplied a
non-empty one. -/
def primaryOverrides (method : String) (body : Option (List Nat))
    (decode : List Nat → String → String) (encoding : String)
    (pr : PlaywrightRequest) : Overrides :=
  { method := if pyUpper method ≠ pyUpper pr.method then some method else none
    post_data :=
      match body with
      | some b => if b ≠ [] then some (decode b encoding) else none
      | none => none }

/-- Events a page can emit during its lifetime; `_create_page` wires listeners
for `close` and `crash`. -/
inductive PageEvent
  | close
  | crash
  | other
deriving DecidableEq, Repr

/-- `handler._make_close_page_callback`: each invocation releases one semaphore
slot, provided the context is still registered in `context_wrappers`. -/
def close_page_callback (context_registered : Bool) : Nat :=
  if context_registered then 1 else 0

/-- The listener table installed by `_create_page`: the close-page callback is
registered once for `close` and once for `crash`; other events release
nothing. -/
def page_listener_releases (context_registered : Bool) (e : PageEvent) : Nat :=
  match e with
  | .close => close_page_callback context_registered
  | .crash => close_page_callback context_registered
  | .other => 0

/-- Total semaphore releases over a page lifetime, i.e. over the sequence of
events the page emits. -/
def lifetime_releases (context_registered : Bool) (events : List PageEvent) : Nat :=
  (events.map (page_listener_releases context_registered)).sum

/-- Position of one caller inside `handler._create_page`'s context-resolution
block: before `async with self.context_launch_lock` (`idle`), holding the lock
after acquiring it (`locked`), inside `await self._create_browser_context(...)`
still holding the lock (`creating`), or past the block (`done`). -/
inductive CallerPC
  | idle
  | locked
  | creating
  | done
deriving DecidableEq, Repr

/-- Shared state for `n` concurrent callers of `_create_page`: the single
`context_launch_lock` (held by at most one caller), the keys of
`context_wrappers`, and one entry per `_create_browser_context` call made. -/
structure PoolState (n : Nat) where
  lock : Option (Fin n)
  registry : List String
  creations : List String
  pc : Fin n → CallerPC

/-- Interleaving semantics of the locked block of `_create_page`: acquire the
lock when free; look up the requested name in `context_wrappers` and either
finish immediately (hit, releasing the lock) or start creating (miss); finish a
creation by registering the context and releasing the lock. -/
inductive PoolStep (n : Nat) (names : Fin n → String) :
    PoolState n → PoolState n → Prop
  | acquire (s : PoolState n) (i : Fin n) :
      s.pc i = .idle → s.lock = none →
      PoolStep n names s
        { s with lock := some i, pc := Function.update s.pc i .locked }
  | lookupHit (s : PoolState n) (i : Fin n) :
      s.pc i = .locked → names i ∈ s.registry →
      PoolStep n names s
        { s with lock := none, pc := Function.update s.pc i .done }
  | lookupMiss (s : PoolState n) (i : Fin n) :
      s.pc i = .locked → names i ∉ s.registry →
      PoolStep n names s { s with pc := Function.update s.pc i .creating }
  | createDone (s : PoolState n) (i : Fin n) :
      s.pc i = .creating →
      PoolStep n names s
        { s with lock := none, registry := names i :: s.registry,
                 creations := names i :: s.creations,
                 pc := Function.update s.pc i .done }

/-- Initial state: no context exists yet, no caller has entered the block. -/
def initPool (n : Nat) : PoolState n :=
  { lock := none, registry := [], creations := [], pc := fun _ => .idle }

/-- States reachable by interleaving the callers' steps from the initial
state. -/
def PoolReachable (n : Nat) (names : Fin n → String) (s : PoolState n) : Prop :=
  Relation.ReflTransGen (PoolStep n names) (initPool n) s

/-- Inductive invariant of the pool: the lock is held by every caller inside the
block; a creating caller's name is not yet registered; creations mirror the
registry; names are registered at most once; a finished caller's name is
registered. -/
def PoolInv (n : Nat) (names : Fin n → String) (s : PoolState n) : Prop :=
  (∀ i, s.pc i = .locked ∨ s.pc i = .creating → s.lock = some i) ∧
  (∀ i, s.pc i = .creating → names i ∉ s.registry) ∧
  s.creations = s.registry ∧
  s.registry.Nodup ∧
  (∀ i, s.pc i = .done → names i ∈ s.registry)

/-- The charset candidate contributed by the Content-Type header: present iff
the header is present and truthy and declares a charset. -/
def headerDeclaredCharset (httpContentTypeEncoding : String → Option String) :
    Option String → Option String
  | some ct => if ct ≠ "" then httpContentTypeEncoding ct else none
  | none => none

/-- The spec's wording for the body-charset/UTF-8 tail of the choice: use the
charset declared inside the HTML body when it encodes the text, else UTF-8. -/
def specBodyCharsetOrUTF8 (tryEncode : String → String → Option (List Nat))
    (utf8Encode : String → List Nat) (bodyCharset : Option String)
    (text : String) : List Nat × String :=
  match bodyCharset with
  | some c =>
    match tryEncode c text with
    | some b => (b, c)
    | none => (utf8Encode text, "utf-8")
  | none => (utf8Encode text, "utf-8")

/-- The spec's wording for the charset choice: try the charset declared in the
Content-Type header, then the charset declared inside the HTML body, then
UTF-8; a candidate under which encoding the text fails is skipped in favour of
the next. -/
def specChooseEncoding (tryEncode : String → String → Option (List Nat))
    (utf8Encode : String → List Nat) (headerCharset bodyCharset : Option String)
    (text : String) : List Nat × String :=
  match headerCharset with
  | some h =>
    match tryEncode h text with
    | some b => (b, h)
    | none => specBodyCharsetOrUTF8 tryEncode utf8Encode bodyCharset text
  | none => specBodyCharsetOrUTF8 tryEncode utf8Encode bodyCharset text

/-- Claim C6: for every navigation outcome, `_encode_body` chooses body bytes
and declared encoding by trying, in order, the charset declared in the
Content-Type header, then the charset declared inside the HTML body, then
UTF-8 as fallback; a candidate charset under which encoding the text fails is
skipped in favour of the next candidate. -/
theorem encode_body_header_then_body_then_utf8
    (tryEncode : String → String → Option (List Nat)) (utf8Encode : String → List Nat)
    (httpCT htmlBody : String → Option String) (contentType : Option String)
    (text : String) :
    encode_body tryEncode utf8Encode httpCT htmlBody contentType text =
      specChooseEncoding tryEncode utf8Encode
        (headerDeclaredCharset httpCT contentType) (htmlBody text) text := by
  have hbody :
      encode_body_loop tryEncode utf8Encode text ([htmlBody text].filterMap id) =
        specBodyCharsetOrUTF8 tryEncode utf8Encode (htmlBody text) text := by
    rcases hb : htmlBody text with _ | c
    · simp [encode_body_loop, specBodyCharsetOrUTF8]
    · rcases he : tryEncode c text with _ | b <;>
        simp [encode_body_loop, specBodyCharsetOrUTF8, he]
  rcases contentType with _ | ct
  · simpa [encode_body, possible_encodings, headerDeclaredCharset,
      specChooseEncoding] using hbody
  · by_cases hct : ct = ""
    · simpa [encode_body, possible_encodings, headerDeclaredCharset,
        specChooseEncoding, hct] using hbody
    · rcases hh : httpCT ct with _ | h
      · simpa [encode_body, possible_encodings, headerDeclaredCharset,
          specChooseEncoding, hct, hh] using hbody
      · rcases he : tryEncode h text with _ | b
        · simpa [encode_body, possible_encodings, headerDeclaredCharset,
            specChooseEncoding, hct, hh, he, encode_body_loop] using hbody
        · simp [encode_body, possible_encodings, headerDeclaredCharset,
            specChooseEncoding, hct, hh, he, encode_body_loop]

/-- The pair returned by the encode loop is always the text encoded under the
returned charset: either a successful candidate encode, or the UTF-8
fallback. -/
theorem encode_body_loop_encodes (tryEncode : String → String → Option (List Nat))
    (utf8Encode : String → List Nat) (text : String) :
    ∀ cands : List String,
      tryEncode (encode_body_loop tryEncode utf8Encode text cands).2 text =
          some (encode_body_loop tryEncode utf8Encode text cands).1 ∨
        ((encode_body_loop tryEncode utf8Encode text cands).2 = "utf-8" ∧
          (encode_body_loop tryEncode utf8Encode text cands).1 = utf8Encode text) := by
  intro cands
  induction cands with
  | nil => exact Or.inr ⟨rfl, rfl⟩
  | cons enc rest ih =>
    rcases he : tryEncode enc text with _ | b
    · simpa [encode_body_loop, he] using ih
    · simp [encode_body_loop, he]

/-- Claim C10: `_encode_body` returns a pair `(body, encoding)` in which `body`
is the text encoded under the returned encoding (a successful candidate encode
or the UTF-8 fallback); consequently, whenever decoding inverts encoding,
decoding the returned body with the returned encoding recovers the original
text, so the emitted body and its declared encoding are mutually consistent. -/
theorem encode_body_round_trip (tryEncode : String → String → Option (List Nat))
    (utf8Encode : String → List Nat) (httpCT htmlBody : String → Option String)
    (contentType : Option String) (text : String)
    (decodeFn : String → List Nat → String)
    (hdec : ∀ e b, tryEncode e text = some b → decodeFn e b = text)
    (hutf : decodeFn "utf-8" (utf8Encode text) = text) :
    (tryEncode (encode_body tryEncode utf8Encode httpCT htmlBody contentType text).2 text =
        some (encode_body tryEncode utf8Encode httpCT htmlBody contentType text).1 ∨
      ((encode_body tryEncode utf8Encode httpCT htmlBody contentType text).2 = "utf-8" ∧
        (encode_body tryEncode utf8Encode httpCT htmlBody contentType text).1 =
          utf8Encode text)) ∧
      decodeFn (encode_body tryEncode utf8Encode httpCT htmlBody contentType text).2
        (encode_body tryEncode utf8Encode httpCT htmlBody contentType text).1 = text := by
  have h := encode_body_loop_encodes tryEncode utf8Encode text
    ((possible_encodings httpCT htmlBody contentType text).filterMap id)
  refine ⟨h, ?_⟩
  rcases h with h | ⟨h2, h1⟩
  · exact hdec _ _ h
  · rw [show (encode_body tryEncode utf8Encode httpCT htmlBody contentType text) =
      encode_body_loop tryEncode utf8Encode text
        ((possible_encodings httpCT htmlBody contentType text).filterMap id) from rfl,
      h2, h1]
    exact hutf

/-- Witness for C10 at a concrete codec: the header declares charset `"enc"`
which encodes `"hi"` as `[5]`; decoding recovers the text. -/
theorem encode_body_round_trip_witness :
    (((fun e _ => if e = "enc" then some [5] else none) :
          String → String → Option (List Nat))
        (encode_body (fun e _ => if e = "enc" then some [5] else none) (fun _ => [0])
            (fun _ => some "enc") (fun _ => none) (some "text/html") "hi").2 "hi" =
        some (encode_body (fun e _ => if e = "enc" then some [5] else none) (fun _ => [0])
            (fun _ => some "enc") (fun _ => none) (some "text/html") "hi").1 ∨
      ((encode_body (fun e _ => if e = "enc" then some [5] else none) (fun _ => [0])
            (fun _ => some "enc") (fun _ => none) (some "text/html") "hi").2 = "utf-8" ∧
        (encode_body (fun e _ => if e = "enc" then some [5] else none) (fun _ => [0])
            (fun _ => some "enc") (fun _ => none) (some "text/html") "hi").1 = [0])) ∧
      ((fun _ _ => "hi") : String → List Nat → String)
        (encode_body (fun e _ => if e = "enc" then some [5] else none) (fun _ => [0])
            (fun _ => some "enc") (fun _ => none) (some "text/html") "hi").2
        (encode_body (fun e _ => if e = "enc" then some [5] else none) (fun _ => [0])
            (fun _ => some "enc") (fun _ => none) (some "text/html") "hi").1 = "hi" :=
  encode_body_round_trip (fun e _ => if e = "enc" then some [5] else none) (fun _ => [0])
    (fun _ => some "enc") (fun _ => none) (some "text/html") "hi" (fun _ _ => "hi")
    (fun _ _ _ => rfl) rfl

/-- Claim C8: reading the page content is retried exactly once when the first
attempt fails with the engine-specific "page is navigating and changing the
content" error, and the second attempt's result (value or error) is returned
as is; a first failure with any other error propagates immediately (the result
does not even depend on the retry); a first success is returned directly. -/
theorem page_content_retry_once (attempt retryAttempt : Except PlaywrightError String) :
    (∀ err, attempt = .error err →
      strContains NAVIGATION_ERROR_MSG err.message = true →
      get_page_content attempt retryAttempt = retryAttempt) ∧
    (∀ err, attempt = .error err →
      strContains NAVIGATION_ERROR_MSG err.message = false →
      get_page_content attempt retryAttempt = .error err) ∧
    (∀ content, attempt = .ok content →
      get_page_content attempt retryAttempt = .ok content) := by
  refine ⟨?_, ?_, ?_⟩
  · intro err he hm
    subst he
    simp [get_page_content, hm]
  · intro err he hm
    subst he
    simp [get_page_content, hm]
  · intro content he
    subst he
    rfl

/-- Witness for C8: the navigation error triggers the retry and returns the
second attempt's value; an unrelated error propagates. -/
theorem page_content_retry_once_witness :
    get_page_content (.error ⟨NAVIGATION_ERROR_MSG⟩) (.ok "second") = .ok "second" ∧
      get_page_content (.error ⟨"boom"⟩) (.ok "second") =
        .error (⟨"boom"⟩ : PlaywrightError) :=
  ⟨(page_content_retry_once (.error ⟨NAVIGATION_ERROR_MSG⟩) (.ok "second")).1
      ⟨NAVIGATION_ERROR_MSG⟩ rfl (by simp [strContains]),
    (page_content_retry_once (.error ⟨"boom"⟩) (.ok "second")).2.1
      ⟨"boom"⟩ rfl (by decide)⟩

/-- The redirect walk collects, nearest hop first, the chain length, the hop
URLs and the intermediate statuses. -/
theorem collect_redirects_eq (chain : List RedirectHop) :
    collect_redirects chain =
      (chain.length, chain.map RedirectHop.url, chain.map RedirectHop.status) := by
  induction chain with
  | nil => rfl
  | cons hop rest ih => simp [collect_redirects, ih]

/-- Claim C4: for a navigation response whose `redirected_from` chain has
length `N ≥ 1`, `_set_redirect_meta` walks the chain backward collecting each
hop's URL and its intermediate response status (`none` when unavailable),
reverses both lists into caller-chronological order, and exposes them in the
request meta together with a redirect count equal to `N`. -/
theorem redirect_meta_chronological (chain : List RedirectHop) (meta : RedirectMeta)
    (h : chain ≠ []) :
    set_redirect_meta chain meta =
      { meta with
        redirect_times := some chain.length
        redirect_urls := some (chain.map RedirectHop.url).reverse
        redirect_reasons := some (chain.map RedirectHop.status).reverse } := by
  have hlen : chain.length ≠ 0 := by
    simpa [List.length_eq_zero] using h
  simp [set_redirect_meta, collect_redirects_eq, hlen]

/-- Witness for C4: a request redirected twice (302 then 301) yields redirect
lists of length 2 in chronological order and a count of 2. -/
theorem redirect_meta_chronological_witness :
    set_redirect_meta [⟨"u2", some 301⟩, ⟨"u1", some 302⟩] {} =
      { redirect_times := some 2, redirect_urls := some ["u1", "u2"],
        redirect_reasons := some [some 302, some 301] } :=
  (redirect_meta_chronological [⟨"u2", some 301⟩, ⟨"u1", some 302⟩] {}
      (by decide)).trans (by decide)

/-- Claim C3: a caller request that completes successfully carries either a
download-derived body (exactly when the download record is truthy) or a
page-content-derived body (otherwise), never both; and a download record is
truthy iff it has received a non-empty body or an exception. -/
theorem response_body_source_exclusive (download : Option Download)
    (encodedPage : List Nat × String) (pageUrl : String) (navStatus : Option Nat)
    (r : FinalResponse)
    (h : download_request_with_page download encodedPage pageUrl navStatus = .ok r) :
    ((optDownloadTruthy download = true ∧
        ∃ d, download = some d ∧ r.body = .fromDownload d.body) ∨
      (optDownloadTruthy download = false ∧
        r.body = .fromPage encodedPage.1 encodedPage.2)) ∧
    (∀ d : Download, d.toBool = true ↔ (d.body ≠ [] ∨ d.exception ≠ none)) := by
  constructor
  · simp only [download_request_with_page] at h
    split_ifs at h with h1 h2
    · rcases download with _ | d
      · exact Bool.noConfusion h2
      · left
        refine ⟨h2, d, rfl, ?_⟩
        injection h with h
        subst h
        rfl
    · right
      have h2f : optDownloadTruthy download = false := by
        cases hx : optDownloadTruthy download
        · rfl
        · exact absurd hx h2
      refine ⟨h2f, ?_⟩
      injection h with h
      subst h
      rfl
  · intro d
    rcases hbody : d.body with _ | ⟨x, xs⟩ <;>
      rcases hex : d.exception with _ | ex <;>
        simp [Download.toBool, hbody, hex]

/-- Witness for C3: a truthy download record yields a download-derived body; an
absent one yields a page-content-derived body. -/
theorem response_body_source_exclusive_witness :
    ((optDownloadTruthy (some { body := [1] }) = true ∧
        ∃ d, (some { body := [1] } : Option Download) = some d ∧
          (ResponseBody.fromDownload [1] : ResponseBody) = .fromDownload d.body) ∨
      (optDownloadTruthy (some { body := [1] }) = false ∧
        (ResponseBody.fromDownload [1] : ResponseBody) = .fromPage [2] "e")) ∧
    (∀ d : Download, d.toBool = true ↔ (d.body ≠ [] ∨ d.exception ≠ none)) := by
  have h := response_body_source_exclusive (some { body := [1] }) ([2], "e") "purl"
    (some 200) { url := "", status := 200, body := .fromDownload [1] } rfl
  exact h

/-- Claim C5: when navigation raises the engine-specific "navigation became a
download" error, the coordinator waits for the download-started signal; if the
intermediate response status observed at that point is 204 the original
navigation error is re-raised; otherwise it waits for download-ready and
returns the download outcome (and no navigation response). -/
theorem download_error_204_reraise (browser_type_name : String)
    (e : PlaywrightError) (downloadAtStarted downloadFinal : Download)
    (h : isDownloadStartError browser_type_name e = true) :
    (downloadAtStarted.response_status = 204 →
      get_response_and_download browser_type_name (.err e) downloadAtStarted
        downloadFinal = .error e) ∧
    (downloadAtStarted.response_status ≠ 204 →
      get_response_and_download browser_type_name (.err e) downloadAtStarted
        downloadFinal = .ok (none, downloadOrNone downloadFinal)) := by
  constructor
  · intro h204
    simp [get_response_and_download, h, h204]
  · intro h204
    simp [get_response_and_download, h, h204]

/-- Witness for C5 with chromium's `net::ERR_ABORTED`: an intermediate 204
re-raises the navigation error, an intermediate 200 yields the download. -/
theorem download_error_204_reraise_witness :
    get_response_and_download "chromium" (.err ⟨"net::ERR_ABORTED at u"⟩)
        { response_status := 204 } { body := [1] } =
      .error (⟨"net::ERR_ABORTED at u"⟩ : PlaywrightError) ∧
    get_response_and_download "chromium" (.err ⟨"net::ERR_ABORTED at u"⟩)
        { response_status := 200 } { body := [1] } =
      .ok (none, downloadOrNone { body := [1] }) :=
  ⟨(download_error_204_reraise "chromium" ⟨"net::ERR_ABORTED at u"⟩
      { response_status := 204 } { body := [1] } (by decide)).1 rfl,
    (download_error_204_reraise "chromium" ⟨"net::ERR_ABORTED at u"⟩
      { response_status := 200 } { body := [1] } (by decide)).2 (by decide)⟩

/-- If every attempt up to the remaining budget raises a target-closed error,
the loop re-raises the error of the last attempt made. -/
theorem download_request_go_exhausted (attempts : Nat → AttemptResult)
    (errs : Nat → PlaywrightError) :
    ∀ rem i, (∀ j, j ≤ i + rem → attempts j = .targetClosed (errs j)) →
      download_request_go attempts i rem = .error (errs (i + rem)) := by
  intro rem
  induction rem with
  | zero =>
    intro i hall
    have hi := hall i (Nat.le_refl i)
    simp [download_request_go, hi]
  | succ rem ih =>
    intro i hall
    have hi := hall i (Nat.le_add_right i (rem + 1))
    have hrest := ih (i + 1) (fun j hj => hall j (by omega))
    calc download_request_go attempts i (rem + 1)
        = download_request_go attempts (i + 1) rem := by
          simp [download_request_go, hi]
      _ = .error (errs (i + 1 + rem)) := hrest
      _ = .error (errs (i + (rem + 1))) := by
          rw [show i + 1 + rem = i + (rem + 1) by omega]

/-- If the first `k` attempts raise target-closed errors and attempt `k`
succeeds within the remaining budget, the loop returns that success. -/
theorem download_request_go_success (attempts : Nat → AttemptResult)
    (r : FinalResponse) :
    ∀ k i rem, k ≤ rem →
      (∀ j, j < k → ∃ e, attempts (i + j) = .targetClosed e) →
      attempts (i + k) = .success r →
      download_request_go attempts i rem = .ok r := by
  intro k
  induction k with
  | zero =>
    intro i rem _ _ hsucc
    have hi : attempts i = .success r := by simpa using hsucc
    cases rem <;> simp [download_request_go, hi]
  | succ k ih =>
    intro i rem hk hfail hsucc
    obtain ⟨e0, he0⟩ := hfail 0 (Nat.succ_pos k)
    have hi : attempts i = .targetClosed e0 := by simpa using he0
    rcases rem with _ | rem
    · omega
    · have step : download_request_go attempts i (rem + 1) =
          download_request_go attempts (i + 1) rem := by
        simp [download_request_go, hi]
      rw [step]
      refine ih (i + 1) rem (by omega) ?_ ?_
      · intro j hj
        obtain ⟨e, he⟩ := hfail (j + 1) (by omega)
        exact ⟨e, by rw [show i + 1 + j = i + (j + 1) by omega]; exact he⟩
      · rw [show i + 1 + k = i + (k + 1) by omega]
        exact hsucc

/-- Claim C7: a target-closed error during the whole page-creation-plus-
navigation flow causes the flow to be retried up to
`target_closed_max_retries` times (3 by default): an attempt that succeeds
after at most `target_closed_max_retries` target-closed failures is returned,
and once the bound is exhausted the last target-closed error is re-raised. -/
theorem target_closed_retry_bound (attempts : Nat → AttemptResult)
    (max_retries : Nat) :
    (∀ errs : Nat → PlaywrightError,
      (∀ j, j ≤ max_retries → attempts j = .targetClosed (errs j)) →
      download_request attempts max_retries = .error (errs max_retries)) ∧
    (∀ k r, k ≤ max_retries →
      (∀ j, j < k → ∃ e, attempts j = .targetClosed e) →
      attempts k = .success r →
      download_request attempts max_retries = .ok r) ∧
    ({} : Config).target_closed_max_retries = 3 := by
  refine ⟨?_, ?_, rfl⟩
  · intro errs hall
    have := download_request_go_exhausted attempts errs max_retries 0
      (fun j hj => hall j (by omega))
    simpa [download_request] using this
  · intro k r hk hfail hsucc
    have := download_request_go_success attempts r k 0 max_retries hk
      (fun j hj => by simpa using hfail j hj) (by simpa using hsucc)
    simpa [download_request] using this

/-- Witness for C7: with the default bound of 3, two target-closed failures
followed by a success yield the success, while four consecutive target-closed
failures re-raise the last error. -/
theorem target_closed_retry_bound_witness :
    download_request
        (fun i => if i < 2 then .targetClosed ⟨"closed"⟩
          else .success { url := "u", status := 200, body := .fromPage [] "utf-8" }) 3 =
      .ok { url := "u", status := 200, body := .fromPage [] "utf-8" } ∧
    download_request (fun i => .targetClosed ⟨toString i⟩) 3 =
      .error (⟨"3"⟩ : PlaywrightError) :=
  ⟨(target_closed_retry_bound
        (fun i => if i < 2 then .targetClosed ⟨"closed"⟩
          else .success { url := "u", status := 200, body := .fromPage [] "utf-8" }) 3).2.1
      2 { url := "u", status := 200, body := .fromPage [] "utf-8" } (by omega)
      (fun j hj => ⟨⟨"closed"⟩, by
        have : j < 2 := hj
        simp [this]⟩)
      (by decide),
    (target_closed_retry_bound (fun i => .targetClosed ⟨toString i⟩) 3).1
      (fun i => ⟨toString i⟩) (fun j _ => rfl)⟩

/-- A matching intercepted request seen with the one-shot flag still unset is
the primary match and receives exactly the method/body overrides of the
source. -/
theorem request_handler_match_pos (method url : String) (body : Option (List Nat))
    (decode : List Nat → String → String) (encoding : String)
    (pr : PlaywrightRequest) (hc : matchesScrapyRequest url pr = true) :
    request_handler_match method url body decode encoding false pr =
      (true, primaryOverrides method body decode encoding pr) := by
  rcases body with _ | b
  · by_cases hm : pyUpper method = pyUpper pr.method <;>
      simp [request_handler_match, primaryOverrides, hc, hm]
  · by_cases hb : b = [] <;>
      by_cases hm : pyUpper method = pyUpper pr.method <;>
        simp [request_handler_match, primaryOverrides, hc, hm, hb]

/-- A non-matching intercepted request is never the primary match and receives
no override. -/
theorem request_handler_match_neg (method url : String) (body : Option (List Nat))
    (decode : List Nat → String → String) (encoding : String) (flag : Bool)
    (pr : PlaywrightRequest) (hc : matchesScrapyRequest url pr = false) :
    request_handler_match method url body decode encoding flag pr = (false, {}) := by
  simp [request_handler_match, hc]

/-- Once the one-shot flag is set, no intercepted request matches. -/
theorem request_handler_match_flagged (method url : String) (body : Option (List Nat))
    (decode : List Nat → String → String) (encoding : String)
    (pr : PlaywrightRequest) :
    request_handler_match method url body decode encoding true pr = (false, {}) := by
  simp [request_handler_match]

/-- After the one-shot flag is set, every remaining intercepted request is
passed through unmodified. -/
theorem process_requests_flagged (method url : String) (body : Option (List Nat))
    (decode : List Nat → String → String) (encoding : String)
    (prs : List PlaywrightRequest) :
    process_requests method url body decode encoding true prs =
      prs.map (fun _ => (false, ({} : Overrides))) := by
  induction prs with
  | nil => rfl
  | cons pr rest ih =>
    simp [process_requests, request_handler_match_flagged, ih]

/-- The pass-through decisions contain no match. -/
theorem countP_matched_map_const (l : List PlaywrightRequest) :
    (l.map (fun _ => ((false, ({} : Overrides)) : Bool × Overrides))).countP
      (fun p => p.1) = 0 := by
  induction l with
  | nil => rfl
  | cons pr rest ih => simp [ih]

/-- Claim C1: over the intercepted requests of one page load, processed in
order, a request is the primary match iff its URL (trailing slashes stripped)
equals the caller's URL, it is a navigation request, and no earlier intercepted
request matched; at most one request matches; the primary match's method is
overridden only when it differs case-insensitively from the browser request's
method and its body only when the caller supplied a non-empty body (decoded
with the declared encoding); unmatched requests receive no override. -/
theorem request_handler_one_shot_override (method url : String)
    (body : Option (List Nat)) (decode : List Nat → String → String)
    (encoding : String) (prs : List PlaywrightRequest) :
    ((process_requests method url body decode encoding false prs).countP
        (fun p => p.1) ≤ 1) ∧
    (∀ i pr dec, prs.get? i = some pr →
      (process_requests method url body decode encoding false prs).get? i =
        some dec →
      ((dec.1 = true ↔ (matchesScrapyRequest url pr = true ∧
          ∀ j q, j < i → prs.get? j = some q →
            matchesScrapyRequest url q = false)) ∧
        (dec.1 = true →
          dec.2 = primaryOverrides method body decode encoding pr) ∧
        (dec.1 = false → dec.2 = ({} : Overrides)))) := by
  induction prs with
  | nil =>
    refine ⟨by simp [process_requests], ?_⟩
    intro i pr dec hpr _
    simp at hpr
  | cons pr rest ih =>
    by_cases hc : matchesScrapyRequest url pr = true
    · have hproc : process_requests method url body decode encoding false (pr :: rest) =
          (true, primaryOverrides method body decode encoding pr) ::
            rest.map (fun _ => (false, ({} : Overrides))) := by
        simp [process_requests, request_handler_match_pos method url body decode
          encoding pr hc, process_requests_flagged]
      constructor
      · rw [hproc]
        simp [List.countP_cons, countP_matched_map_const]
      · intro i pr2 dec hpr2 hdec
        rw [hproc] at hdec
        rcases i with _ | j
        · simp only [List.get?_cons_zero, Option.some.injEq] at hpr2 hdec
          subst hpr2
          subst hdec
          refine ⟨?_, fun _ => rfl, fun hfalse => Bool.noConfusion hfalse⟩
          constructor
          · intro _
            exact ⟨hc, fun j q hj _ => absurd hj (Nat.not_lt_zero j)⟩
          · intro _
            rfl
        · simp only [List.get?_cons_succ] at hpr2 hdec
          rw [List.get?_map, hpr2] at hdec
          have hdec2 : ((false, ({} : Overrides)) : Bool × Overrides) = dec :=
            Option.some.inj hdec
          subst hdec2
          refine ⟨?_, fun htrue => Bool.noConfusion htrue, fun _ => rfl⟩
          constructor
          · intro hfalse
            exact absurd hfalse (by simp)
          · rintro ⟨_, hall⟩
            have h0 := hall 0 pr (Nat.succ_pos j) rfl
            rw [hc] at h0
            exact Bool.noConfusion h0
    · have hcf : matchesScrapyRequest url pr = false := by
        simpa using hc
      have hproc : process_requests method url body decode encoding false (pr :: rest) =
          (false, ({} : Overrides)) ::
            process_requests method url body decode encoding false rest := by
        simp [process_requests, request_handler_match_neg method url body decode
          encoding false pr hcf]
      obtain ⟨ihcount, ihidx⟩ := ih
      constructor
      · rw [hproc]
        simpa [List.countP_cons] using ihcount
      · intro i pr2 dec hpr2 hdec
        rw [hproc] at hdec
        rcases i with _ | j
        · simp only [List.get?_cons_zero, Option.some.injEq] at hpr2 hdec
          subst hpr2
          subst hdec
          refine ⟨?_, fun htrue => Bool.noConfusion htrue, fun _ => rfl⟩
          constructor
          · intro hfalse
            exact absurd hfalse (by simp)
          · rintro ⟨hq, _⟩
            rw [hcf] at hq
            exact Bool.noConfusion hq
        · simp only [List.get?_cons_succ] at hpr2 hdec
          obtain ⟨hiff, hpos, hneg⟩ := ihidx j pr2 dec hpr2 hdec
          refine ⟨?_, hpos, hneg⟩
          constructor
          · intro h
            obtain ⟨hq, hall⟩ := hiff.mp h
            refine ⟨hq, ?_⟩
            intro j2 q hj2 hget
            rcases j2 with _ | j3
            · simp only [List.get?_cons_zero, Option.some.injEq] at hget
              subst hget
              exact hcf
            · simp only [List.get?_cons_succ] at hget
              exact hall j3 q (by omega) hget
          · rintro ⟨hq, hall⟩
            apply hiff.mpr
            refine ⟨hq, ?_⟩
            intro j3 q hj3 hget
            exact hall (j3 + 1) q (by omega) (by simpa using hget)

/-- Witness for C1: two identical navigation requests to the caller's URL; the
decisions match at most once, and the first decision carries exactly the
method/body overrides of the source. -/
theorem request_handler_one_shot_override_witness :
    ((process_requests "POST" "http://a" (some [1]) (fun _ _ => "d") "utf-8" false
        [⟨"http://a/", "GET", true⟩, ⟨"http://a", "GET", true⟩]).countP
      (fun p => p.1) ≤ 1) ∧
    ({ method := some "POST", post_data := some "d" } : Overrides) =
      primaryOverrides "POST" (some [1]) (fun _ _ => "d") "utf-8"
        ⟨"http://a/", "GET", true⟩ := by
  have h := request_handler_one_shot_override "POST" "http://a" (some [1])
    (fun _ _ => "d") "utf-8" [⟨"http://a/", "GET", true⟩, ⟨"http://a", "GET", true⟩]
  refine ⟨h.1, ?_⟩
  have h0 := h.2 0 ⟨"http://a/", "GET", true⟩
    (true, { method := some "POST", post_data := some "d" }) rfl (by decide)
  exact h0.2.1 rfl

/-- Counterexample to C2 as stated: `_create_page` registers the semaphore-
releasing callback twice, once for `close` and once for `crash`, with no
one-shot guard; a page that crashes and is then explicitly closed by the
handler releases its context's semaphore slot twice, not at most once. -/
theorem page_crash_then_close_double_release :
    lifetime_releases true [PageEvent.crash, PageEvent.close] = 2 ∧
      ¬ lifetime_releases true [PageEvent.crash, PageEvent.close] ≤ 1 := by
  decide

/-- Claim C2 (amended): while the page's context is registered, every `close`
or `crash` event releases exactly one semaphore slot, so a page lifetime with a
single such event releases the slot exactly once, but a lifetime in which both
a crash and a close fire releases it once per event. -/
theorem page_close_crash_release_per_event (context_registered : Bool)
    (events : List PageEvent) :
    lifetime_releases context_registered events =
      if context_registered then
        events.countP (fun e => e == PageEvent.close || e == PageEvent.crash)
      else 0 := by
  induction events with
  | nil => cases context_registered <;> simp [lifetime_releases]
  | cons e rest ih =>
    cases context_registered <;>
      rcases e with _ | _ | _ <;>
        simp_all [lifetime_releases, page_listener_releases, close_page_callback,
          List.countP_cons] <;>
      omega

/-- The pool invariant holds initially. -/
theorem poolInv_init (n : Nat) (names : Fin n → String) :
    PoolInv n names (initPool n) := by
  refine ⟨?_, ?_, rfl, List.nodup_nil, ?_⟩
  · intro i hi
    rcases hi with hi | hi <;> exact CallerPC.noConfusion hi
  · intro i hi
    exact CallerPC.noConfusion hi
  · intro i hi
    exact CallerPC.noConfusion hi

/-- Every step of the interleaving semantics preserves the pool invariant. -/
theorem poolInv_step (n : Nat) (names : Fin n → String) (s t : PoolState n)
    (hinv : PoolInv n names s) (hstep : PoolStep n names s t) :
    PoolInv n names t := by
  obtain ⟨hmutex, hfresh, hcre, hnodup, hdone⟩ := hinv
  cases hstep with
  | acquire i hpc hlock =>
    refine ⟨?_, ?_, hcre, hnodup, ?_⟩
    · intro j hj
      dsimp only at hj ⊢
      by_cases hij : j = i
      · subst hij
        rfl
      · rw [Function.update_noteq hij] at hj
        have := hmutex j hj
        rw [hlock] at this
        exact Option.noConfusion this
    · intro j hj
      dsimp only at hj ⊢
      by_cases hij : j = i
      · subst hij
        rw [Function.update_same] at hj
        exact CallerPC.noConfusion hj
      · rw [Function.update_noteq hij] at hj
        exact hfresh j hj
    · intro j hj
      dsimp only at hj ⊢
      by_cases hij : j = i
      · subst hij
        rw [Function.update_same] at hj
        exact CallerPC.noConfusion hj
      · rw [Function.update_noteq hij] at hj
        exact hdone j hj
  | lookupHit i hpc hmem =>
    have hlock := hmutex i (Or.inl hpc)
    refine ⟨?_, ?_, hcre, hnodup, ?_⟩
    · intro j hj
      dsimp only at hj ⊢
      by_cases hij : j = i
      · subst hij
        rw [Function.update_same] at hj
        rcases hj with hj | hj <;> exact CallerPC.noConfusion hj
      · rw [Function.update_noteq hij] at hj
        have := hmutex j hj
        rw [hlock] at this
        exact absurd (Option.some.inj this).symm hij
    · intro j hj
      dsimp only at hj ⊢
      by_cases hij : j = i
      · subst hij
        rw [Function.update_same] at hj
        exact CallerPC.noConfusion hj
      · rw [Function.update_noteq hij] at hj
        exact hfresh j hj
    · intro j hj
      dsimp only at hj ⊢
      by_cases hij : j = i
      · subst hij
        exact hmem
      · rw [Function.update_noteq hij] at hj
        exact hdone j hj
  | lookupMiss i hpc hmem =>
    have hlock := hmutex i (Or.inl hpc)
    refine ⟨?_, ?_, hcre, hnodup, ?_⟩
    · intro j hj
      dsimp only at hj ⊢
      by_cases hij : j = i
      · subst hij
        exact hlock
      · rw [Function.update_noteq hij] at hj
        exact hmutex j hj
    · intro j hj
      dsimp only at hj ⊢
      by_cases hij : j = i
      · subst hij
        exact hmem
      · rw [Function.update_noteq hij] at hj
        exact hfresh j hj
    · intro j hj
      dsimp only at hj ⊢
      by_cases hij : j = i
      · subst hij
        rw [Function.update_same] at hj
        exact CallerPC.noConfusion hj
      · rw [Function.update_noteq hij] at hj
        exact hdone j hj
  | createDone i hpc =>
    have hlock := hmutex i (Or.inr hpc)
    refine ⟨?_, ?_, ?_, ?_, ?_⟩
    · intro j hj
      dsimp only at hj ⊢
      by_cases hij : j = i
      · subst hij
        rw [Function.update_same] at hj
        rcases hj with hj | hj <;> exact CallerPC.noConfusion hj
      · rw [Function.update_noteq hij] at hj
        have := hmutex j hj
        rw [hlock] at this
        exact absurd (Option.some.inj this).symm hij
    · intro j hj
      dsimp only at hj ⊢
      by_cases hij : j = i
      · subst hij
        rw [Function.update_same] at hj
        exact CallerPC.noConfusion hj
      · rw [Function.update_noteq hij] at hj
        have := hmutex j (Or.inr hj)
        rw [hlock] at this
        exact absurd (Option.some.inj this).symm hij
    · dsimp only
      rw [hcre]
    · exact List.nodup_cons.mpr ⟨hfresh i hpc, hnodup⟩
    · intro j hj
      dsimp only at hj ⊢
      by_cases hij : j = i
      · subst hij
        exact List.mem_cons_self _ _
      · rw [Function.update_noteq hij] at hj
        exact List.mem_cons_of_mem _ (hdone j hj)

/-- The pool invariant holds in every reachable state. -/
theorem poolInv_reachable (n : Nat) (names : Fin n → String) (s : PoolState n)
    (h : PoolReachable n names s) : PoolInv n names s := by
  induction h with
  | refl => exact poolInv_init n names
  | tail _ hstep ih => exact poolInv_step n names _ _ ih hstep

/-- The caller names used in the counterexample: caller 0 requests context
`"a"`, caller 1 requests the distinct context `"b"`. -/
def distinctNames : Fin 2 → String := fun i => if i = 0 then "a" else "b"

/-- Counterexample to C9 as stated: `_create_page` serializes the whole lookup-
plus-`_create_browser_context` block behind the single global
`context_launch_lock`, so two callers requesting the *distinct* new names
`"a"` and `"b"` can never be inside context creation simultaneously — context
creation for distinct names does not proceed concurrently. -/
theorem distinct_context_creation_not_concurrent :
    ¬ ∃ s : PoolState 2, PoolReachable 2 distinctNames s ∧
        s.pc 0 = CallerPC.creating ∧ s.pc 1 = CallerPC.creating := by
  rintro ⟨s, hreach, h0, h1⟩
  obtain ⟨hmutex, -, -, -, -⟩ := poolInv_reachable 2 distinctNames s hreach
  have e0 := hmutex 0 (Or.inr h0)
  have e1 := hmutex 1 (Or.inr h1)
  rw [e0] at e1
  exact absurd (Option.some.inj e1) (by decide)

/-- Claim C9 (amended): every context name is created at most once — over any
interleaving of `N` callers, each name gains at most one creation, callers
inside creation are unique at any time (all context creation, for the same or
distinct names, is serialized by the single global lock), and in a completed
run every requested name has been created exactly once. -/
theorem context_creation_serialized (n : Nat) (names : Fin n → String)
    (s : PoolState n) (h : PoolReachable n names s) :
    (∀ nm, s.creations.count nm ≤ 1) ∧
    (∀ i j : Fin n, s.pc i = CallerPC.creating → s.pc j = CallerPC.creating →
      i = j) ∧
    ((∀ i, s.pc i = CallerPC.done) →
      ∀ i, s.creations.count (names i) = 1) := by
  obtain ⟨hmutex, hfresh, hcre, hnodup, hdone⟩ := poolInv_reachable n names s h
  refine ⟨?_, ?_, ?_⟩
  · intro nm
    rw [hcre]
    exact List.nodup_iff_count_le_one.mp hnodup nm
  · intro i j hi hj
    have ei := hmutex i (Or.inr hi)
    have ej := hmutex j (Or.inr hj)
    rw [ei] at ej
    exact Option.some.inj ej
  · intro hall i
    rw [hcre]
    exact List.count_eq_one_of_mem hnodup (hdone i (hall i))

/-- The single-caller run used as the C9 witness: the name it requests. -/
def soloName : Fin 1 → String := fun _ => "default"

/-- Witness run, state 0: the initial pool. -/
def soloState0 : PoolState 1 := initPool 1

/-- Witness run, state 1: the caller has acquired the creation lock. -/
def soloState1 : PoolState 1 :=
  { soloState0 with lock := some 0, pc := Function.update soloState0.pc 0 CallerPC.locked }

/-- Witness run, state 2: the lookup missed, the caller is creating. -/
def soloState2 : PoolState 1 :=
  { soloState1 with pc := Function.update soloState1.pc 0 CallerPC.creating }

/-- Witness run, state 3: the context is registered and the lock released. -/
def soloState3 : PoolState 1 :=
  { soloState2 with
    lock := none
    registry := soloName 0 :: soloState2.registry
    creations := soloName 0 :: soloState2.creations
    pc := Function.update soloState2.pc 0 CallerPC.done }

/-- The witness run is a real interleaving of the semantics. -/
theorem soloState3_reachable : PoolReachable 1 soloName soloState3 := by
  have h1 : PoolStep 1 soloName soloState0 soloState1 :=
    PoolStep.acquire soloState0 0 rfl rfl
  have h2 : PoolStep 1 soloName soloState1 soloState2 :=
    PoolStep.lookupMiss soloState1 0 rfl (by simp [soloState1, soloState0, initPool])
  have h3 : PoolStep 1 soloName soloState2 soloState3 :=
    PoolStep.createDone soloState2 0 rfl
  exact Relation.ReflTransGen.tail
    (Relation.ReflTransGen.tail
      (Relation.ReflTransGen.tail Relation.ReflTransGen.refl h1) h2) h3

/-- Witness for C9: in the completed single-caller run the requested context
was created exactly once. -/
theorem context_creation_serialized_witness :
    soloState3.creations.count (soloName 0) = 1 :=
  (context_creation_serialized 1 soloName soloState3 soloState3_reachable).2.2
    (by decide) 0

end ScrapyPlaywright
